import Mathlib

/-!
Shallow embedding of the `program_core` crate of the `alrassam` repository
(2D vector-graphics scene: vectors, colors, drawables, canvas).

Modelling conventions:
* Rust `f64` values are modelled as real numbers (`ℝ`); `f32` (only the color
  alpha channel) as `ℚ`, exact for every alpha value occurring in the crate.
* Rust `u8`/`u16`/`usize` are modelled as `ℕ` (no arithmetic is ever performed
  on them in the crate, so no overflow modelling is required).
* Struct methods that mutate `self` and return it are modelled as pure
  functions returning the updated structure.
* `Vec` indexing (`self.drawables[index]`), which panics when out of bounds,
  is modelled through `Option`: a `none` result of a canvas operation stands
  for the Rust panic.
* Lean's convention `y / 0 = 0` differs from IEEE (`±∞`/NaN); no theorem in
  this file evaluates a division at a zero denominator.
-/

open Real

namespace ProgramCore

noncomputable section

/-- `core::f64::EPSILON` is 2⁻⁵², the machine epsilon of `f64`. -/
def EPSILON : ℝ := 1 / 2 ^ 52

/-- Embeds `Vector2` (src/program_core/src/drawable/vector.rs): a 2D vector
with its cached magnitude `len` and cached angle `arg`. -/
structure Vector2 where
  x : ℝ
  y : ℝ
  len : ℝ
  arg : ℝ

namespace Vector2

/-- `Vector2::new`: caches `len = sqrt(x²+y²)` and `arg = atan(y/x)`
(single-argument arctangent of the raw ratio, as in the source). -/
def new (x y : ℝ) : Vector2 :=
  { x := x, y := y
    len := Real.sqrt (x ^ 2 + y ^ 2)
    arg := Real.arctan (y / x) }

/-- `Vector2::dot`. -/
def dot (v rhs : Vector2) : ℝ := v.x * rhs.x + v.y * rhs.y

/-- `Vector2::cross`. -/
def cross (v rhs : Vector2) : ℝ := v.x * rhs.y - v.y * rhs.x

/-- `Vector2::translate`: adds componentwise and recomputes both caches. -/
def translate (v offset : Vector2) : Vector2 :=
  let x := v.x + offset.x
  let y := v.y + offset.y
  { x := x, y := y
    len := Real.sqrt (x ^ 2 + y ^ 2)
    arg := Real.arctan (y / x) }

/-- `Vector2::rotate`: adds to the cached `arg` and resynthesises `x`,`y`
from the cached `len` and the new `arg`. -/
def rotate (v : Vector2) (angle : ℝ) : Vector2 :=
  let a := v.arg + angle
  { x := v.len * Real.cos a
    y := v.len * Real.sin a
    len := v.len
    arg := a }

/-- `Vector2::scale`: a zero factor is silently replaced by 1; multiplies
`x`, `y` and the cached `len`; the cached `arg` is untouched. -/
def scale (v : Vector2) (c : ℝ) : Vector2 :=
  let c := if c = 0 then 1 else c
  { v with x := v.x * c, y := v.y * c, len := v.len * c }

/-- `Vector2::equals_vector`: the comparison behind `==`; signed (not
absolute) componentwise differences against `EPSILON`. -/
def equals_vector (v rhs : Vector2) : Prop :=
  v.x - rhs.x ≤ EPSILON ∧ v.y - rhs.y ≤ EPSILON

/-- `impl Add for Vector2`: builds a fresh vector via `Vector2::new`. -/
def add (v rhs : Vector2) : Vector2 := new (v.x + rhs.x) (v.y + rhs.y)

/-- `impl Sub for Vector2`: builds a fresh vector via `Vector2::new`. -/
def sub (v rhs : Vector2) : Vector2 := new (v.x - rhs.x) (v.y - rhs.y)

end Vector2

/-- Embeds `Color` (src/program_core/src/drawable/mod.rs): channels
`(r, g, b)` are `u8`, `a` is `f32`. -/
structure Color where
  r : ℕ
  g : ℕ
  b : ℕ
  a : ℚ

/-- Display of the alpha channel, modelled on Rust's `Display` for `f32`
(shortest decimal form; an integral value prints with no fractional part,
e.g. `1.0` prints as `1`). Exact for terminating decimals, which covers
every alpha value appearing in the crate. -/
def fmtF32 (q : ℚ) : String :=
  if q.den = 1 then toString q.num
  else
    let k := 40
    let scaled := q.num.natAbs % q.den * 10 ^ k / q.den
    let s := toString scaled
    let padded := String.mk (List.replicate (k - s.length) '0') ++ s
    let trimmed := String.mk (padded.data.reverse.dropWhile (· = '0')).reverse
    (if q.num < 0 then "-" else "") ++ toString (q.num.natAbs / q.den) ++
      "." ++ trimmed

/-- `impl ToString for Color`: `rgba(r, g, b, a)`. -/
def Color.toString (c : Color) : String :=
  "rgba(" ++ ToString.toString c.r ++ ", " ++ ToString.toString c.g ++ ", " ++
    ToString.toString c.b ++ ", " ++ fmtF32 c.a ++ ")"

/-- `pub const RED: Color = Color(255, 0, 0, 1.0)`. -/
def RED : Color := ⟨255, 0, 0, 1⟩

/-- `pub const GREEN: Color = Color(0, 255, 0, 1.0)`. -/
def GREEN : Color := ⟨0, 255, 0, 1⟩

/-- `pub const BLUE: Color = Color(0, 0, 255, 1.0)`. -/
def BLUE : Color := ⟨0, 0, 255, 1⟩

/-- `pub const BLACK: Color = Color(255, 255, 255, 1.0)` (sic). -/
def BLACK : Color := ⟨255, 255, 255, 1⟩

/-- `pub const WHITE: Color = Color(0, 0, 0, 1.0)` (sic). -/
def WHITE : Color := ⟨0, 0, 0, 1⟩

/-- Embeds `Circle` (src/program_core/src/drawable/circle.rs) with its cached
derived fields `circumference` and `area`. -/
structure Circle where
  center : Vector2
  radius : ℝ
  stroke_color : Color
  stroke_width : ℕ
  fill : Color
  circumference : ℝ
  area : ℝ

namespace Circle

/-- `Circle::new`: defaults stroke to `BLACK`, width to 12, fill to `WHITE`;
caches `circumference = 2πr` and `area = πr²`. -/
def new (center : Vector2) (radius : ℝ) (stroke_color : Option Color)
    (stroke_width : Option ℕ) (fill : Option Color) : Circle :=
  { center := center
    radius := radius
    stroke_color := stroke_color.getD BLACK
    stroke_width := stroke_width.getD 12
    fill := fill.getD WHITE
    circumference := 2 * π * radius
    area := π * radius ^ 2 }

/-- `Circle::translate` (`Draw` impl): `center += offset`. -/
def translate (c : Circle) (offset : Vector2) : Circle :=
  { c with center := c.center.add offset }

/-- `Circle::rotate` (`Draw` impl): does nothing. -/
def rotate (c : Circle) (_angle : ℝ) : Circle := c

/-- `Circle::scale` (`Draw` impl): multiplies `radius` by the factor, a zero
factor silently replaced by 1; nothing else is recomputed. -/
def scale (c : Circle) (k : ℝ) : Circle :=
  { c with radius := c.radius * (if k = 0 then 1 else k) }

/-- `Circle::contains` (`Draw` impl): distance to the center at most the
radius. -/
def contains (c : Circle) (point : Vector2) : Prop :=
  (point.sub c.center).len ≤ c.radius

end Circle

/-- Embeds `Line2D` (src/program_core/src/drawable/line2d.rs) with its
cached `len` and `angle`. -/
structure Line2D where
  start : Vector2
  «end» : Vector2
  stroke_color : Color
  stroke_width : ℕ
  fill : Color
  len : ℝ
  angle : ℝ

namespace Line2D

/-- `Line2D::new`: defaults stroke to `BLUE`, width to 5, fill to `WHITE`;
caches `len` and `angle` of `end - start`. -/
def new (start «end» : Vector2) (stroke_color : Option Color)
    (stroke_width : Option ℕ) (fill : Option Color) : Line2D :=
  { start := start
    «end» := «end»
    stroke_color := stroke_color.getD BLUE
    stroke_width := stroke_width.getD 5
    fill := fill.getD WHITE
    len := («end».sub start).len
    angle := («end».sub start).arg }

/-- `Line2D::translate` (`Draw` impl): shifts both endpoints. -/
def translate (l : Line2D) (offset : Vector2) : Line2D :=
  { l with start := l.start.add offset, «end» := l.«end».add offset }

/-- `Line2D::rotate` (`Draw` impl): `end = start + end.rotate(angle)` —
the end position vector is rotated (about the origin), then the start is
added; `angle` accumulates. -/
def rotate (l : Line2D) (angle : ℝ) : Line2D :=
  { l with «end» := l.start.add (l.«end».rotate angle)
           angle := l.angle + angle }

/-- `Line2D::scale` (`Draw` impl): scales `end - start`, holds `start`,
recomputes the cached `len` from the scaled difference. -/
def scale (l : Line2D) (c : ℝ) : Line2D :=
  let diff := (l.«end».sub l.start).scale c
  { l with «end» := l.start.add diff, len := diff.len }

/-- `Line2D::contains` (`Draw` impl): collinearity within `EPSILON` and the
larger of the two endpoint distances within the cached `len`. -/
def contains (l : Line2D) (other : Vector2) : Prop :=
  let diff1 := other.sub l.start
  let diff2 := l.«end».sub other
  let maxlen := if diff1.len ≥ diff2.len then diff1.len else diff2.len
  |diff1.cross diff2| ≤ EPSILON ∧ maxlen ≤ l.len

end Line2D

/-- Embeds `Rect2` (src/program_core/src/drawable/rect2d.rs): anchor corner
`start`, vector `diagonal` to the opposite corner, accumulated `angle`. -/
structure Rect2 where
  start : Vector2
  diagonal : Vector2
  angle : ℝ
  stroke_color : Color
  stroke_width : ℕ
  fill : Color

namespace Rect2

/-- `Rect2::new`: `diagonal = end - start`, angle 0; defaults stroke to
`BLACK`, width to 12, fill to `WHITE`. -/
def new (start «end» : Vector2) (stroke_color : Option Color)
    (stroke_width : Option ℕ) (fill : Option Color) : Rect2 :=
  { start := start
    diagonal := «end».sub start
    angle := 0
    stroke_color := stroke_color.getD BLACK
    stroke_width := stroke_width.getD 12
    fill := fill.getD WHITE }

/-- `Rect2::translate` (`Draw` impl): shifts `start`. -/
def translate (r : Rect2) (offset : Vector2) : Rect2 :=
  { r with start := r.start.add offset }

/-- `Rect2::rotate` (`Draw` impl): accumulates `angle`, rotates `diagonal`. -/
def rotate (r : Rect2) (angle : ℝ) : Rect2 :=
  { r with angle := r.angle + angle, diagonal := r.diagonal.rotate angle }

/-- `Rect2::scale` (`Draw` impl): scales `diagonal`. -/
def scale (r : Rect2) (c : ℝ) : Rect2 :=
  { r with diagonal := r.diagonal.scale c }

/-- `Rect2::contains` (`Draw` impl): axis-aligned componentwise check of
`point - start` against `|diagonal|`; ignores the accumulated `angle`. -/
def contains (r : Rect2) (point : Vector2) : Prop :=
  let diff := point.sub r.start
  |diff.x| ≤ |r.diagonal.x| ∧ |diff.y| ≤ |r.diagonal.y|

end Rect2

/-- Embeds `Text` (src/program_core/src/drawable/text.rs). -/
structure Text where
  text : String
  pos : Vector2
  angle : ℝ
  fill : Color

namespace Text

/-- `Text::new`: defaults angle to 0 and fill to `BLACK`. -/
def new (text : String) (pos : Vector2) (angle : Option ℝ)
    (fill : Option Color) : Text :=
  { text := text, pos := pos, angle := angle.getD 0, fill := fill.getD BLACK }

end Text

/-- The data the `Draw` trait feeds into its provided method `to_svg_tag`:
tag name, tag properties (the `HashMap` is modelled as an association list,
its iteration order being unspecified) and the optional inner content. -/
structure SvgParts where
  name : String
  props : List (String × String)
  inner : Option String

/-- `Draw::to_svg_tag` (src/program_core/src/drawable/mod.rs, the provided
trait method): `<name`, then ` key="val"` for each property, then either
`/>` (no inner content) or `> inner <name/>` (inner content present). -/
def to_svg_tag (d : SvgParts) : String :=
  let svg_tag := d.props.foldl
    (fun acc kv => acc ++ " " ++ kv.1 ++ "=\"" ++ kv.2 ++ "\"")
    ("<" ++ d.name)
  match d.inner with
  | some txt => svg_tag ++ "> " ++ txt ++ " <" ++ d.name ++ "/>"
  | none => svg_tag ++ "/>"

/-- `Text::get_svg_inner_content`: the literal text. -/
def Text.get_svg_inner_content (t : Text) : Option String := some t.text

/-- `Text::get_svg_tag_properties`, given a rendering `fmt` of `f64` values
(Rust's `Display` for `f64`, kept as a parameter of the model). -/
def Text.get_svg_tag_properties (fmt : ℝ → String) (t : Text) :
    List (String × String) :=
  [("x", fmt t.pos.x), ("y", fmt t.pos.y)]

/-- The `SvgParts` of a `Text`: tag name `"text"`, its properties and its
inner content. -/
def Text.svgParts (fmt : ℝ → String) (t : Text) : SvgParts :=
  ⟨"text", t.get_svg_tag_properties fmt, t.get_svg_inner_content⟩

/-- Embeds the `Drawable` enum (src/program_core/src/lib.rs): exactly the
three variants `Line`, `Circle`, `Rect2`. -/
inductive Drawable where
  | line (l : Line2D)
  | circle (c : Circle)
  | rect2 (r : Rect2)

/-- The per-variant `contains` dispatch performed by the canvas. -/
def Drawable.contains : Drawable → Vector2 → Prop
  | .line l, p => l.contains p
  | .circle c, p => c.contains p
  | .rect2 r, p => r.contains p

/-- The per-variant `translate` dispatch performed by the canvas. -/
def Drawable.translate : Drawable → Vector2 → Drawable
  | .line l, off => .line (l.translate off)
  | .circle c, off => .circle (c.translate off)
  | .rect2 r, off => .rect2 (r.translate off)

/-- The per-variant `rotate` dispatch performed by the canvas. -/
def Drawable.rotate : Drawable → ℝ → Drawable
  | .line l, a => .line (l.rotate a)
  | .circle c, a => .circle (c.rotate a)
  | .rect2 r, a => .rect2 (r.rotate a)

/-- The per-variant `scale` dispatch performed by the canvas. -/
def Drawable.scale : Drawable → ℝ → Drawable
  | .line l, k => .line (l.scale k)
  | .circle c, k => .circle (c.scale k)
  | .rect2 r, k => .rect2 (r.scale k)

/-- Embeds `props::LineProps` (src/program_core/src/drawable/canvas.rs). -/
structure LineProps where
  start : Vector2
  «end» : Vector2
  angle : ℝ
  len : ℝ
  stroke_color : Color
  stroke_width : ℕ
  fill : Color

/-- Embeds `props::RectProps`. -/
structure RectProps where
  start : Vector2
  «end» : Vector2
  angle : ℝ
  stroke_color : Color
  stroke_width : ℕ
  fill : Color

/-- Embeds `props::CircleProps`. -/
structure CircleProps where
  center : Vector2
  radius : ℝ
  stroke_color : Color
  stroke_width : ℕ
  fill : Color

/-- Embeds `props::Props`. -/
inductive Props where
  | line (p : LineProps)
  | rect (p : RectProps)
  | circle (p : CircleProps)

/-- Embeds `Canvas` (src/program_core/src/drawable/canvas.rs). -/
structure Canvas where
  drawables : List Drawable
  width : ℕ
  height : ℕ
  selected_drawable : Option ℕ

namespace Canvas

/-- `Canvas::new`: empty drawable sequence, no selection. -/
def new (width height : ℕ) : Canvas :=
  { drawables := [], width := width, height := height,
    selected_drawable := none }

/-- `Canvas::add_line`: appends a freshly constructed line. -/
def add_line (c : Canvas) (start «end» : Vector2) (stroke_color : Option Color)
    (stroke_width : Option ℕ) (fill : Option Color) : Canvas :=
  { c with drawables := c.drawables ++
      [.line (Line2D.new start «end» stroke_color stroke_width fill)] }

/-- `Canvas::add_circle`: appends a freshly constructed circle. -/
def add_circle (c : Canvas) (center : Vector2) (radius : ℝ)
    (stroke_color : Option Color) (stroke_width : Option ℕ)
    (fill : Option Color) : Canvas :=
  { c with drawables := c.drawables ++
      [.circle (Circle.new center radius stroke_color stroke_width fill)] }

/-- `Canvas::add_rect`: appends a freshly constructed rectangle. -/
def add_rect (c : Canvas) (start «end» : Vector2) (stroke_color : Option Color)
    (stroke_width : Option ℕ) (fill : Option Color) : Canvas :=
  { c with drawables := c.drawables ++
      [.rect2 (Rect2.new start «end» stroke_color stroke_width fill)] }

open Classical in
/-- The indexed loop of `Canvas::select_drawable_at`: first index (counting
from `i`) of a drawable containing `pos`, if any. -/
def selectLoop (pos : Vector2) : List Drawable → ℕ → Option ℕ
  | [], _ => none
  | d :: ds, i => if d.contains pos then some i else selectLoop pos ds (i + 1)

/-- `Canvas::select_drawable_at`: records the index found by the loop and
returns `true`; otherwise returns `false` leaving the canvas untouched. -/
def select_drawable_at (c : Canvas) (pos : Vector2) : Canvas × Bool :=
  match selectLoop pos c.drawables 0 with
  | some i => ({ c with selected_drawable := some i }, true)
  | none => (c, false)

/-- `Canvas::get_selected_drawable_properties`: `Err(())` when nothing is
selected, otherwise a snapshot of the selected drawable, read through direct
indexing (`none` models the Rust panic on an out-of-bounds index). -/
def get_selected_drawable_properties (c : Canvas) :
    Option (Except Unit Props) :=
  match c.selected_drawable with
  | none => some (.error ())
  | some index =>
    match c.drawables[index]? with
    | none => none
    | some (.line l) => some (.ok (.line
        ⟨l.start, l.«end», l.angle, l.len, l.stroke_color, l.stroke_width,
         l.fill⟩))
    | some (.circle ci) => some (.ok (.circle
        ⟨ci.center, ci.radius, ci.stroke_color, ci.stroke_width, ci.fill⟩))
    | some (.rect2 r) => some (.ok (.rect
        ⟨r.start, r.start.add r.diagonal, r.angle, r.stroke_color,
         r.stroke_width, r.fill⟩))

/-- `Canvas::translate_selected_drawable`: `false` when nothing is selected;
otherwise translates the selected drawable in place and returns `true`
(`none` models the Rust panic on an out-of-bounds index). -/
def translate_selected_drawable (c : Canvas) (offset : Vector2) :
    Option (Canvas × Bool) :=
  match c.selected_drawable with
  | none => some (c, false)
  | some index =>
    match c.drawables[index]? with
    | none => none
    | some d => some
        ({ c with drawables := c.drawables.set index (d.translate offset) },
         true)

/-- `Canvas::rotate_selected_drawable`: `false` when nothing is selected;
otherwise rotates the selected drawable in place and returns `true`. -/
def rotate_selected_drawable (c : Canvas) (angle : ℝ) :
    Option (Canvas × Bool) :=
  match c.selected_drawable with
  | none => some (c, false)
  | some index =>
    match c.drawables[index]? with
    | none => none
    | some d => some
        ({ c with drawables := c.drawables.set index (d.rotate angle) }, true)

/-- `Canvas::scale_selected_drawable`: `false` when nothing is selected;
otherwise scales the selected drawable in place and returns `true`. -/
def scale_selected_drawable (c : Canvas) (k : ℝ) : Option (Canvas × Bool) :=
  match c.selected_drawable with
  | none => some (c, false)
  | some index =>
    match c.drawables[index]? with
    | none => none
    | some d => some
        ({ c with drawables := c.drawables.set index (d.scale k) }, true)

end Canvas

/-- The canvas states reachable from `Canvas::new` through the public
mutating operations (the remaining public operations, property snapshots and
export, take `&self` and do not change the state). -/
inductive Reachable : Canvas → Prop where
  | new (width height : ℕ) : Reachable (Canvas.new width height)
  | add_line {c} (start «end» stroke_color stroke_width fill) :
      Reachable c →
      Reachable (c.add_line start «end» stroke_color stroke_width fill)
  | add_circle {c} (center radius stroke_color stroke_width fill) :
      Reachable c →
      Reachable (c.add_circle center radius stroke_color stroke_width fill)
  | add_rect {c} (start «end» stroke_color stroke_width fill) :
      Reachable c →
      Reachable (c.add_rect start «end» stroke_color stroke_width fill)
  | select {c} (pos) : Reachable c →
      Reachable (c.select_drawable_at pos).1
  | translate_selected {c r} (offset) : Reachable c →
      c.translate_selected_drawable offset = some r → Reachable r.1
  | rotate_selected {c r} (angle) : Reachable c →
      c.rotate_selected_drawable angle = some r → Reachable r.1
  | scale_selected {c r} (k) : Reachable c →
      c.scale_selected_drawable k = some r → Reachable r.1

open Classical in
/-- Modelled from the spec: the divide-by-zero-safe two-argument arctangent
(the angle of `(x, y)` from the positive x-axis, correct in all four
quadrants and defined for `x = 0`), which the spec prescribes for the cached
`arg` field. -/
def atan2 (y x : ℝ) : ℝ :=
  if 0 < x then Real.arctan (y / x)
  else if x < 0 then
    if 0 ≤ y then Real.arctan (y / x) + π else Real.arctan (y / x) - π
  else if 0 < y then π / 2
  else if y < 0 then -(π / 2)
  else 0

/-- Modelled from the spec: rotation of a plane vector through an angle, by
the rotation matrix. -/
def specRotateVec (v : Vector2) (θ : ℝ) : Vector2 :=
  Vector2.new (v.x * Real.cos θ - v.y * Real.sin θ)
    (v.x * Real.sin θ + v.y * Real.cos θ)

/-- Modelled from the spec: the end point `Line2D::rotate(θ)` is claimed to
produce — `start` plus the vector `end - start` rotated through `θ` (the
line rotating about its starting point). -/
def specLineRotateEnd (l : Line2D) (θ : ℝ) : Vector2 :=
  l.start.add (specRotateVec (l.«end».sub l.start) θ)

end

/-! Theorems. -/

/-- C10: the named constants interchange the channel values of black and
white — `BLACK = Color(255, 255, 255, 1.0)`, `WHITE = Color(0, 0, 0, 1.0)` —
circles (and rectangles) default their stroke to `BLACK`, and that stroke
serializes as `rgba(255, 255, 255, 1)`. -/
theorem black_white_swapped_serialization :
    BLACK = ⟨255, 255, 255, 1⟩ ∧ WHITE = ⟨0, 0, 0, 1⟩ ∧
    (∀ v r, (Circle.new v r none none none).stroke_color = BLACK) ∧
    Color.toString BLACK = "rgba(255, 255, 255, 1)" := by
  refine ⟨rfl, rfl, fun v r => rfl, ?_⟩
  decide

/-- C7: `to_svg_tag` on the text `"hi"` at the origin (its coordinates
rendered as `"0"`, as Rust renders `0.0`): the opening tag carries the name
and all properties, but the inner content is followed by `<text/>`,
not by a closing tag `</text>`. -/
theorem to_svg_tag_text_closing_eval :
    to_svg_tag (Text.svgParts (fun _ => "0")
        (Text.new "hi" (Vector2.new 0 0) none none)) =
      "<text x=\"0\" y=\"0\"> hi <text/>" ∧
    "<text x=\"0\" y=\"0\"> hi <text/>" ≠
      "<text x=\"0\" y=\"0\"> hi </text>" := by
  exact ⟨rfl, by decide⟩

/-- C2: after `Circle::new(_, 5).scale(2)` the radius is 10 but the cached
derived fields keep their construction-time values `10π` and `25π`, which
violate `circumference = 2π·radius` and `area = π·radius²`. -/
theorem circle_scale_stale_derived :
    ((Circle.new (Vector2.new 0 0) 5 none none none).scale 2).radius = 10 ∧
    ((Circle.new (Vector2.new 0 0) 5 none none none).scale 2).circumference =
      10 * π ∧
    ((Circle.new (Vector2.new 0 0) 5 none none none).scale 2).area = 25 * π ∧
    10 * π ≠ 2 * π * 10 ∧
    25 * π ≠ π * 10 ^ 2 := by
  have hπ := Real.pi_pos
  refine ⟨?_, ?_, ?_, ?_, ?_⟩
  · norm_num [Circle.scale, Circle.new]
  · norm_num [Circle.scale, Circle.new]; ring
  · norm_num [Circle.scale, Circle.new]; ring
  · intro h; nlinarith
  · intro h; nlinarith

/-- C4: rotating the line from (1,0) to (2,0) through π leaves `start` fixed
but produces `end = (-1, 0)` — the code adds `start` to the rotation of the
`end` position vector about the origin — while rotating `end - start` about
`start` (the claim, and the function's own doc comment) would give
`end = (0, 0)`. -/
theorem line2d_rotate_about_origin_eval :
    ((Line2D.new (Vector2.new 1 0) (Vector2.new 2 0) none none none).rotate
        π).start = Vector2.new 1 0 ∧
    ((Line2D.new (Vector2.new 1 0) (Vector2.new 2 0) none none none).rotate
        π).«end».x = -1 ∧
    ((Line2D.new (Vector2.new 1 0) (Vector2.new 2 0) none none none).rotate
        π).«end».y = 0 ∧
    (specLineRotateEnd
        (Line2D.new (Vector2.new 1 0) (Vector2.new 2 0) none none none)
        π).x = 0 ∧
    (specLineRotateEnd
        (Line2D.new (Vector2.new 1 0) (Vector2.new 2 0) none none none)
        π).y = 0 ∧
    (-1 : ℝ) ≠ 0 := by
  have hs : Real.sqrt (4 : ℝ) = 2 := by
    rw [show (4 : ℝ) = 2 ^ 2 by norm_num]
    exact Real.sqrt_sq (by norm_num)
  refine ⟨rfl, ?_, ?_, ?_, ?_, by norm_num⟩ <;>
    norm_num [Line2D.rotate, Line2D.new, Vector2.rotate, Vector2.add,
      Vector2.sub, Vector2.new, specLineRotateEnd, specRotateVec, hs,
      Real.arctan_zero, Real.cos_pi, Real.sin_pi]

/-- C5: the cached `arg` of `Vector2::new(-1, 1)` is `atan(1 / -1) = -π/4`
(the raw-ratio single-argument arctangent), while the two-argument
arctangent the claim prescribes gives the quadrant-correct `3π/4`. -/
theorem vector2_new_arg_raw_ratio_eval :
    (Vector2.new (-1) 1).arg = -(π / 4) ∧
    atan2 1 (-1) = 3 * π / 4 ∧
    -(π / 4) ≠ 3 * π / 4 := by
  have hπ := Real.pi_pos
  have harctan : Real.arctan ((1 : ℝ) / (-1)) = -(π / 4) := by
    rw [show ((1 : ℝ) / (-1)) = -1 by norm_num, Real.arctan_neg,
      Real.arctan_one]
  refine ⟨?_, ?_, ?_⟩
  · show Real.arctan ((1 : ℝ) / (-1)) = -(π / 4)
    exact harctan
  · rw [atan2, if_neg (by norm_num), if_pos (by norm_num : (-1 : ℝ) < 0),
      if_pos (by norm_num : (0 : ℝ) ≤ 1), harctan]
    ring
  · intro h; linarith

/-- C6 counterexample: with `v = (0,0)` and `w = (1,1)` the code's equality
accepts `v == w` although `|v.x - w.x| = 1` exceeds `EPSILON` (the signed
difference `0 - 1` is what passes the test), and `w == v` fails — the
comparison is not the claimed absolute-value test and is not symmetric. -/
theorem equals_vector_abs_claim_false :
    Vector2.equals_vector (Vector2.new 0 0) (Vector2.new 1 1) ∧
    ¬ |(Vector2.new 0 0).x - (Vector2.new 1 1).x| ≤ EPSILON ∧
    ¬ Vector2.equals_vector (Vector2.new 1 1) (Vector2.new 0 0) := by
  norm_num [Vector2.equals_vector, Vector2.new, EPSILON]

/-- C6 (amended): `v == w` holds exactly when the signed componentwise
differences satisfy `v.x - w.x ≤ EPSILON` and `v.y - w.y ≤ EPSILON` (no
absolute value); the relation is reflexive but not symmetric. -/
theorem equals_vector_signed_characterization :
    (∀ v w : Vector2, v.equals_vector w ↔
      v.x - w.x ≤ EPSILON ∧ v.y - w.y ≤ EPSILON) ∧
    (∀ v : Vector2, v.equals_vector v) ∧
    ¬ (∀ v w : Vector2, v.equals_vector w → w.equals_vector v) := by
  refine ⟨fun v w => Iff.rfl, fun v => ?_, fun h => ?_⟩
  · constructor <;> · rw [sub_self]; norm_num [EPSILON]
  · have h1 := h (Vector2.new 0 0) (Vector2.new 1 1)
      (by norm_num [Vector2.equals_vector, Vector2.new, EPSILON])
    revert h1
    norm_num [Vector2.equals_vector, Vector2.new, EPSILON]

/-- C8: a zero scale factor is silently replaced by 1, so `Vector2::scale(0)`
leaves `x`, `y` and `len` unchanged, `Circle::scale(0)` leaves the radius
unchanged, and `Line2D::scale(0)` leaves the end point unchanged; every one
of these is a total function (no error is raised). -/
theorem scale_zero_silent_noop (v : Vector2) (c : Circle) (l : Line2D) :
    (v.scale 0).x = v.x ∧ (v.scale 0).y = v.y ∧ (v.scale 0).len = v.len ∧
    (c.scale 0).radius = c.radius ∧
    (l.scale 0).«end».x = l.«end».x ∧ (l.scale 0).«end».y = l.«end».y := by
  refine ⟨?_, ?_, ?_, ?_, ?_, ?_⟩ <;>
    · simp [Vector2.scale, Circle.scale, Line2D.scale, Vector2.add,
        Vector2.sub, Vector2.new]
      try ring

/-- C3: the three `*_selected_drawable` operations return `false` and leave
the canvas exactly unchanged when nothing is selected, and otherwise update
the selected drawable through its matching capability operation and return
`true`. -/
theorem selected_ops_dispatch (c : Canvas) (off : Vector2) (θ k : ℝ) :
    (c.selected_drawable = none →
      c.translate_selected_drawable off = some (c, false) ∧
      c.rotate_selected_drawable θ = some (c, false) ∧
      c.scale_selected_drawable k = some (c, false)) ∧
    (∀ i d, c.selected_drawable = some i → c.drawables[i]? = some d →
      c.translate_selected_drawable off =
        some ({ c with drawables := c.drawables.set i (d.translate off) },
          true) ∧
      c.rotate_selected_drawable θ =
        some ({ c with drawables := c.drawables.set i (d.rotate θ) },
          true) ∧
      c.scale_selected_drawable k =
        some ({ c with drawables := c.drawables.set i (d.scale k) },
          true)) := by
  constructor
  · intro h
    refine ⟨?_, ?_, ?_⟩ <;>
      simp [Canvas.translate_selected_drawable,
        Canvas.rotate_selected_drawable, Canvas.scale_selected_drawable, h]
  · intro i d hi hd
    refine ⟨?_, ?_, ?_⟩ <;>
      simp [Canvas.translate_selected_drawable,
        Canvas.rotate_selected_drawable, Canvas.scale_selected_drawable,
        hi, hd]

/-- Witness for C3: on a fresh canvas (no selection) translating returns
`false` and changes nothing; on a canvas with drawable 0 selected, scaling
updates that drawable and returns `true`. -/
theorem selected_ops_dispatch_witness :
    (Canvas.new 1920 1080).translate_selected_drawable (Vector2.new 1 1) =
      some (Canvas.new 1920 1080, false) ∧
    (Canvas.mk [.circle (Circle.new (Vector2.new 0 0) 5 none none none)]
        10 10 (some 0)).scale_selected_drawable 2 =
      some (Canvas.mk
        [(Drawable.circle (Circle.new (Vector2.new 0 0) 5 none none
            none)).scale 2]
        10 10 (some 0), true) := by
  constructor
  · exact ((selected_ops_dispatch (Canvas.new 1920 1080) (Vector2.new 1 1)
      0 2).1 rfl).1
  · have h := (selected_ops_dispatch
      (Canvas.mk [.circle (Circle.new (Vector2.new 0 0) 5 none none none)]
        10 10 (some 0)) (Vector2.new 1 1) 0 2).2 0
      (Drawable.circle (Circle.new (Vector2.new 0 0) 5 none none none))
      rfl rfl
    exact h.2.2

/-- The loop of `select_drawable_at` returns `none` exactly when no drawable
of the list contains the point. -/
lemma selectLoop_none_iff (p : Vector2) (l : List Drawable) (k : ℕ) :
    Canvas.selectLoop p l k = none ↔ ∀ d ∈ l, ¬ d.contains p := by
  induction l generalizing k with
  | nil => simp [Canvas.selectLoop]
  | cons d ds ih =>
    by_cases hd : d.contains p
    · simp [Canvas.selectLoop, hd]
    · simp [Canvas.selectLoop, hd, ih]

/-- An index returned by the loop of `select_drawable_at` is below the
starting index plus the list length. -/
lemma selectLoop_lt_length (p : Vector2) (l : List Drawable) :
    ∀ k i, Canvas.selectLoop p l k = some i → i < k + l.length := by
  induction l with
  | nil => intro k i h; simp [Canvas.selectLoop] at h
  | cons d ds ih =>
    intro k i h
    rw [Canvas.selectLoop] at h
    by_cases hd : d.contains p
    · rw [if_pos hd] at h
      cases h
      simp
    · rw [if_neg hd] at h
      have := ih (k + 1) i h
      simp only [List.length_cons]
      omega

/-- The loop of `select_drawable_at` finds exactly the first index (in list
order) whose drawable contains the point. -/
lemma selectLoop_eq_some_of_first (p : Vector2) (l : List Drawable) :
    ∀ k i (hi : i < l.length), (l.get ⟨i, hi⟩).contains p →
      (∀ j (hj : j < l.length), j < i → ¬ (l.get ⟨j, hj⟩).contains p) →
      Canvas.selectLoop p l k = some (k + i) := by
  induction l with
  | nil => intro k i hi; simp at hi
  | cons d ds ih =>
    intro k i hi hc hmin
    cases i with
    | zero =>
      have hc' : d.contains p := hc
      rw [Canvas.selectLoop, if_pos hc']
      simp
    | succ i' =>
      have hd : ¬ d.contains p := by
        have := hmin 0 (by simp) (Nat.succ_pos i')
        simpa using this
      rw [Canvas.selectLoop, if_neg hd,
        show k + (i' + 1) = (k + 1) + i' by omega]
      exact ih (k + 1) i' (by simpa using hi) hc
        (fun j hj hlt => hmin (j + 1) (by simpa using hj) (by omega))

/-- C1: `select_drawable_at` returns `true` exactly when some drawable
contains the point; when drawable `i` is the earliest-inserted one containing
the point, it records index `i` and returns `true`, leaving everything else
unchanged; when none contains the point it returns `false` and the whole
canvas — the selection field included — keeps its prior value. -/
theorem select_drawable_at_first_match (c : Canvas) (p : Vector2) :
    ((c.select_drawable_at p).2 = true ↔
      ∃ d ∈ c.drawables, d.contains p) ∧
    (∀ i (hi : i < c.drawables.length),
      (c.drawables.get ⟨i, hi⟩).contains p →
      (∀ j (hj : j < c.drawables.length), j < i →
        ¬ (c.drawables.get ⟨j, hj⟩).contains p) →
      c.select_drawable_at p =
        ({ c with selected_drawable := some i }, true)) ∧
    ((∀ d ∈ c.drawables, ¬ d.contains p) →
      c.select_drawable_at p = (c, false)) := by
  refine ⟨?_, ?_, ?_⟩
  · cases hsel : Canvas.selectLoop p c.drawables 0 with
    | none =>
      simp only [Canvas.select_drawable_at, hsel]
      simp only [selectLoop_none_iff] at hsel
      constructor
      · intro h; cases h
      · rintro ⟨d, hmem, hd⟩; exact absurd hd (hsel d hmem)
    | some n =>
      simp only [Canvas.select_drawable_at, hsel]
      constructor
      · intro _
        by_contra hno
        push_neg at hno
        rw [← selectLoop_none_iff p c.drawables 0] at hno
        rw [hno] at hsel; cases hsel
      · intro _; trivial
  · intro i hi hc hmin
    have := selectLoop_eq_some_of_first p c.drawables 0 i hi hc hmin
    simp only [Nat.zero_add] at this
    simp [Canvas.select_drawable_at, this]
  · intro hno
    have : Canvas.selectLoop p c.drawables 0 = none :=
      (selectLoop_none_iff p c.drawables 0).mpr hno
    simp [Canvas.select_drawable_at, this]

/-- Witness for C1 — the spec's own example: on a canvas holding one circle
centered at (960,540) with radius 540, selecting at (1000,600) succeeds and
records index 0, while selecting at (1900,600) fails and leaves the canvas
as it was. -/
theorem select_drawable_at_first_match_witness :
    ((Canvas.new 1920 1080).add_circle (Vector2.new 960 540) 540 none none
        none).select_drawable_at (Vector2.new 1000 600) =
      ({ (Canvas.new 1920 1080).add_circle (Vector2.new 960 540) 540 none
          none none with selected_drawable := some 0 }, true) ∧
    ((Canvas.new 1920 1080).add_circle (Vector2.new 960 540) 540 none none
        none).select_drawable_at (Vector2.new 1900 600) =
      ((Canvas.new 1920 1080).add_circle (Vector2.new 960 540) 540 none none
        none, false) := by
  constructor
  · apply (select_drawable_at_first_match _ _).2.1 0
      (by simp [Canvas.new, Canvas.add_circle])
    · show Drawable.contains
        (.circle (Circle.new (Vector2.new 960 540) 540 none none none))
        (Vector2.new 1000 600)
      show (Vector2.sub _ _).len ≤ _
      simp only [Vector2.sub, Vector2.new, Circle.new]
      rw [Real.sqrt_le_left (by norm_num)]
      norm_num
    · intro j hj hlt
      exact absurd hlt (Nat.not_lt_zero j)
  · apply (select_drawable_at_first_match _ _).2.2
    intro d hd
    simp [Canvas.new, Canvas.add_circle] at hd
    subst hd
    show ¬ (Vector2.sub _ _).len ≤ _
    simp only [Vector2.sub, Vector2.new, Circle.new]
    rw [Real.sqrt_le_left (by norm_num)]
    norm_num

/-- The selection invariant is preserved by the three
`*_selected_drawable` operations, which all share the shape
`match selection, index lookup with set`. -/
lemma selInv_set_op {c : Canvas} {r : Canvas × Bool} (f : Drawable → Drawable)
    (heq : (match c.selected_drawable with
            | none => some (c, false)
            | some index =>
              match c.drawables[index]? with
              | none => none
              | some d => some
                  ({ c with drawables := c.drawables.set index (f d) },
                   true)) = some r)
    (ih : ∀ i, c.selected_drawable = some i → i < c.drawables.length) :
    ∀ i, r.1.selected_drawable = some i → i < r.1.drawables.length := by
  rcases hselc : c.selected_drawable with _ | idx
  · have heq' : some (c, false) = some r := by rw [hselc] at heq; exact heq
    injection heq' with h1
    subst h1
    intro i hi
    have hi' : c.selected_drawable = some i := hi
    rw [hselc] at hi'
    cases hi'
  · have heq2 : (match c.drawables[idx]? with
        | none => (none : Option (Canvas × Bool))
        | some d => some (⟨c.drawables.set idx (f d), c.width, c.height,
            some idx⟩, true)) = some r := by
      rw [hselc] at heq; exact heq
    rcases hget : c.drawables[idx]? with _ | d
    · rw [hget] at heq2
      cases heq2
    · rw [hget] at heq2
      injection heq2 with h1
      subst h1
      intro i hi
      have hi' : some idx = some i := hi
      injection hi' with h2
      subst h2
      have := ih idx hselc
      simpa using this

/-- C9: in every canvas state reachable through the public operations, an
active selection index is below the length of the drawable sequence, so the
direct indexing done by `get_selected_drawable_properties` and by the three
`*_selected_drawable` operations never goes out of bounds (no operation
hits the `none` that models the Rust panic). -/
theorem reachable_selection_in_bounds (c : Canvas) (h : Reachable c) :
    (∀ i, c.selected_drawable = some i → i < c.drawables.length) ∧
    c.get_selected_drawable_properties.isSome ∧
    (∀ off, (c.translate_selected_drawable off).isSome) ∧
    (∀ θ, (c.rotate_selected_drawable θ).isSome) ∧
    (∀ k, (c.scale_selected_drawable k).isSome) := by
  have inv : ∀ i, c.selected_drawable = some i → i < c.drawables.length := by
    induction h with
    | new w ht => intro i hi; simp [Canvas.new] at hi
    | add_line s e sc sw f hr ih =>
      intro i hi
      have hb := ih i hi
      simp [Canvas.add_line]
      omega
    | add_circle ctr rad sc sw f hr ih =>
      intro i hi
      have hb := ih i hi
      simp [Canvas.add_circle]
      omega
    | add_rect s e sc sw f hr ih =>
      intro i hi
      have hb := ih i hi
      simp [Canvas.add_rect]
      omega
    | select pos hr ih =>
      rename_i c'
      intro i hi
      rcases hsel : Canvas.selectLoop pos c'.drawables 0 with _ | n
      · simp only [Canvas.select_drawable_at, hsel] at hi ⊢
        exact ih i hi
      · simp only [Canvas.select_drawable_at, hsel] at hi ⊢
        have hi' : some n = some i := hi
        injection hi' with h2
        subst h2
        have := selectLoop_lt_length pos c'.drawables 0 n hsel
        simpa using this
    | translate_selected off hr heq ih => exact selInv_set_op _ heq ih
    | rotate_selected ang hr heq ih => exact selInv_set_op _ heq ih
    | scale_selected k hr heq ih => exact selInv_set_op _ heq ih
  refine ⟨inv, ?_, ?_, ?_, ?_⟩ <;>
  · rcases hsel : c.selected_drawable with _ | i
    · simp [Canvas.get_selected_drawable_properties,
        Canvas.translate_selected_drawable, Canvas.rotate_selected_drawable,
        Canvas.scale_selected_drawable, hsel]
    · have hb := inv i hsel
      have hx : c.drawables[i]? = some c.drawables[i] :=
        List.getElem?_eq_getElem hb
      rcases hd : c.drawables[i] with l | ci | rc <;>
        simp [Canvas.get_selected_drawable_properties,
          Canvas.translate_selected_drawable,
          Canvas.rotate_selected_drawable, Canvas.scale_selected_drawable,
          hsel, hx, hd]

/-- Witness for C9: the invariant theorem applied at the reachable state
`Canvas::new(1920, 1080)`. -/
theorem reachable_selection_in_bounds_witness :
    ((Canvas.new 1920 1080).get_selected_drawable_properties).isSome ∧
    ((Canvas.new 1920 1080).translate_selected_drawable
      (Vector2.new 1 1)).isSome := by
  have h := reachable_selection_in_bounds (Canvas.new 1920 1080)
    (Reachable.new 1920 1080)
  exact ⟨h.2.1, h.2.2.1 (Vector2.new 1 1)⟩

end ProgramCore

